import Mathlib

/-!
Verification development for the glyphs-to-UFO translation pipeline
(third_party/glyphsLib/builder.py). Each Python function that the
properties below talk about is embedded as an executable Lean
definition; machine-level details that the source leaves to Python
(dict iteration order, regular expressions over literal alternations,
string methods) are spelled out explicitly.
-/

namespace GlyphsBuilder

/-- Namespace key used for lib entries (source constant GLYPHS_PREFIX,
value com.schriftgestaltung.). -/
def glyphsNS : String := "com.schriftgestaltung."

/-- Namespace key for public lib entries (source constant PUBLIC_PREFIX). -/
def publicNS : String := "public."

/-- Source table WEIGHT_CODES, an insertion-ordered dict from weight token
to OS/2 weight class. -/
def WEIGHT_CODES : List (String × Int) :=
  [("Thin", 250), ("Light", 300), ("SemiLight", 350), ("DemiLight", 350),
   ("", 400), ("Regular", 400), ("Medium", 500), ("DemiBold", 600),
   ("SemiBold", 600), ("Bold", 700), ("ExtraBold", 800), ("Extra Bold", 800),
   ("Black", 900)]

/-- Source table WIDTH_CODES, an insertion-ordered dict from width token
to OS/2 width class. -/
def WIDTH_CODES : List (String × Int) :=
  [("Extra Condensed", 2), ("Cd", 3), ("Cond", 3), ("Condensed", 3),
   ("Narrow", 4), ("SemiCondensed", 4), ("", 5)]

/-- Source table GLYPHS_COLORS, the fixed 12-entry tuple of mark color
strings indexed by a glyph color index. -/
def GLYPHS_COLORS : List String :=
  ["0.85,0.26,0.06,1", "0.99,0.62,0.11,1", "0.65,0.48,0.2,1", "0.97,1,0,1",
   "0.67,0.95,0.38,1", "0.04,0.57,0.04,1", "0,0.67,0.91,1",
   "0.18,0.16,0.78,1", "0.5,0.09,0.79,1", "0.98,0.36,0.67,1",
   "0.75,0.75,0.75,1", "0.25,0.25,0.25,1"]

/-- Python string join over the non-empty elements of a tuple, as in
the source expression that joins style-name tokens with single spaces. -/
def joinNonEmpty (parts : List String) : String :=
  String.intercalate " " (parts.filter (fun s => s ≠ ""))

/-- Source function build_style_name. The Python function pops the three
token fields out of the master dict (width default empty, weight default
Regular, custom default empty); the popped values are taken here as direct
arguments. -/
def build_style_name (width weight custom : String) (italic : Bool) : String :=
  let italicTok := if italic then "Italic" else ""
  let weight1 :=
    if (italicTok ≠ "" ∨ width ≠ "" ∨ custom ≠ "") ∧ weight = "Regular" then ""
    else weight
  joinNonEmpty [width, weight1, custom, italicTok]

/-- One step of a regular-expression alternation of string literals: the
first pattern in table order that matches at the current position. -/
def findAltAt (keys : List (List Char)) (s : List Char) : Option (List Char) :=
  keys.find? (fun k => k.isPrefixOf s)

/-- Python re.search with a pattern that is an alternation of non-empty
string literals: scan positions left to right, and at each position try
the alternatives in table order; return the matched literal. -/
def searchAlt (keys : List (List Char)) : List Char → Option (List Char)
  | [] => findAltAt keys []
  | s@(_ :: t) =>
    match findAltAt keys s with
    | some k => some k
    | none => searchAlt keys t

/-- The regular-expression search the source performs for one code table:
the pattern joins the non-empty keys of the table with the alternation
bar, and the match result (group 0) is the matched key, or the empty
token when there is no match. -/
def searchCodes (codes : List (String × Int)) (name : String) : String :=
  match searchAlt ((codes.map Prod.fst).filter (fun k => k ≠ "")
      |>.map String.data) name.data with
  | some k => String.mk k
  | none => ""

/-- Width attribute parsed from a style name (first half of the loop in
parse_style_attrs). -/
def styleWidth (name : String) : String := searchCodes WIDTH_CODES name

/-- Weight attribute parsed from a style name (second half of the loop in
parse_style_attrs). -/
def styleWeight (name : String) : String := searchCodes WEIGHT_CODES name

/-- Source function parse_style_attrs: the two-element list of the width
and weight tokens found as substrings of the style name. -/
def parse_style_attrs (name : String) : List String :=
  [styleWidth name, styleWeight name]

/-- Lexicographic comparison of (position, size) alignment zones, the
order Python sorted uses on 2-tuples in set_blue_values. -/
def zoneLE (a b : Int × Int) : Prop :=
  a.1 < b.1 ∨ (a.1 = b.1 ∧ a.2 ≤ b.2)

instance : DecidableRel zoneLE := fun a b =>
  inferInstanceAs (Decidable (a.1 < b.1 ∨ (a.1 = b.1 ∧ a.2 ≤ b.2)))

instance : IsTotal (Int × Int) zoneLE :=
  ⟨fun a b => by unfold zoneLE; omega⟩

instance : IsTrans (Int × Int) zoneLE :=
  ⟨fun a b c h1 h2 => by unfold zoneLE at *; omega⟩

instance : IsAntisymm (Int × Int) zoneLE :=
  ⟨fun a b h1 h2 => by
    cases a; cases b
    simp only [zoneLE] at h1 h2
    simp only [Prod.mk.injEq]
    omega⟩

/-- The two endpoints of one alignment zone in ascending order: Python
sorted applied to the 2-tuple of pos and pos plus size. -/
def blueEndpoints (z : Int × Int) : List Int :=
  [min z.1 (z.1 + z.2), max z.1 (z.1 + z.2)]

/-- Classification in set_blue_values: a zone goes to the primary
sequence when its position is 0 or its size is non-negative. -/
def isPrimaryZone (z : Int × Int) : Bool :=
  decide (z.1 = 0 ∨ 0 ≤ z.2)

/-- Loop body of set_blue_values: extend the chosen sequence with the
sorted endpoints of the zone. -/
def blueStep (acc : List Int × List Int) (z : Int × Int) : List Int × List Int :=
  if z.1 = 0 ∨ 0 ≤ z.2 then (acc.1 ++ blueEndpoints z, acc.2)
  else (acc.1, acc.2 ++ blueEndpoints z)

/-- Source function set_blue_values: iterate the zones in Python sorted
order (lexicographic on the pairs) and build the primary and secondary
blue-value sequences. -/
def set_blue_values (zones : List (Int × Int)) : List Int × List Int :=
  (List.insertionSort zoneLE zones).foldl blueStep ([], [])

theorem foldl_blueStep (l : List (Int × Int)) (bv ob : List Int) :
    l.foldl blueStep (bv, ob) =
      (bv ++ (l.filter isPrimaryZone).flatMap blueEndpoints,
       ob ++ (l.filter (fun z => ¬ isPrimaryZone z)).flatMap blueEndpoints) := by
  induction l generalizing bv ob with
  | nil => simp
  | cons z t ih =>
    simp only [List.foldl_cons, blueStep, List.filter_cons]
    by_cases h : z.1 = 0 ∨ 0 ≤ z.2 <;>
      simp [isPrimaryZone, h, ih]

theorem insertionSort_zoneLE_perm_eq {zs zs' : List (Int × Int)}
    (h : zs'.Perm zs) :
    List.insertionSort zoneLE zs' = List.insertionSort zoneLE zs :=
  List.eq_of_perm_of_sorted
    ((List.perm_insertionSort zoneLE zs').trans
      (h.trans (List.perm_insertionSort zoneLE zs).symm))
    (List.sorted_insertionSort zoneLE zs')
    (List.sorted_insertionSort zoneLE zs)

/-- C3: set_blue_values classifies each zone of the position-sorted list
into the primary sequence when its position is 0 or its size is
non-negative and into the secondary sequence otherwise, appending the
two interval endpoints in ascending order; and permuting the input zone
list leaves both output sequences unchanged. -/
theorem set_blue_values_spec (zs : List (Int × Int)) :
    set_blue_values zs =
      (((List.insertionSort zoneLE zs).filter isPrimaryZone).flatMap
          blueEndpoints,
       ((List.insertionSort zoneLE zs).filter
          (fun z => ¬ isPrimaryZone z)).flatMap blueEndpoints)
    ∧ (∀ z : Int × Int, List.Sorted (· ≤ ·) (blueEndpoints z))
    ∧ (∀ zs' : List (Int × Int), zs'.Perm zs →
        set_blue_values zs' = set_blue_values zs) := by
  refine ⟨by simpa using foldl_blueStep (List.insertionSort zoneLE zs) [] [],
    fun z => ?_, fun zs' h => ?_⟩
  · simp [blueEndpoints]
  · unfold set_blue_values
    rw [insertionSort_zoneLE_perm_eq h]

/-- Witness for C3 at a concrete zone list and a concrete permutation
of it. -/
theorem set_blue_values_spec_witness :
    set_blue_values [((100 : Int), (4 : Int)), (0, 10), (-5, -3)]
      = set_blue_values [((0 : Int), (10 : Int)), (-5, -3), (100, 4)] :=
  (set_blue_values_spec [((0 : Int), (10 : Int)), (-5, -3), (100, 4)]).2.2
    [(100, 4), (0, 10), (-5, -3)] (by decide)

/-- One node of a glyphs path: coordinates, node type string, and
smoothness flag. -/
structure GNode where
  x : Int
  y : Int
  ty : String
  smooth : Bool
deriving DecidableEq, Repr

/-- One glyphs path: the closed flag (path.pop closed, default False)
and the ordered node list. -/
structure GPath where
  closed : Bool
  nodes : List GNode
deriving DecidableEq, Repr

/-- One call issued to the point pen by draw_paths. -/
inductive PenOp where
  | beginPath
  | addPoint (pt : Int × Int) (segmentType : Option String) (smooth : Bool)
  | endPath
deriving DecidableEq, Repr

/-- The point emitted for one node in the main loop of draw_paths: node
types other than line and curve collapse to an unlabeled off-curve
point (segmentType None). -/
def emitNode (n : GNode) : PenOp :=
  .addPoint (n.x, n.y)
    (if n.ty = "line" ∨ n.ty = "curve" then some n.ty else none) n.smooth

/-- The pen calls for a single path in draw_paths. A path not marked
closed pops its first node, which must exist (else Python raises
IndexError) and must have type line (else the assert fires), and emits
it as a move point with the default smooth value False; the remaining
nodes go through the main loop. -/
def drawOnePath (p : GPath) : Except String (List PenOp) :=
  if p.closed then
    .ok ([.beginPath] ++ p.nodes.map emitNode ++ [.endPath])
  else
    match p.nodes with
    | [] => .error "IndexError: pop from empty list"
    | n :: rest =>
      if n.ty = "line" then
        .ok ([.beginPath, .addPoint (n.x, n.y) (some "move") false]
             ++ rest.map emitNode ++ [.endPath])
      else .error "Open path starts with off-curve points"

/-- Source function draw_paths: replay every path onto the pen in order;
a failing path aborts the whole call with the raised error. -/
def draw_paths : List GPath → Except String (List PenOp)
  | [] => .ok []
  | p :: rest =>
    match drawOnePath p with
    | .error e => .error e
    | .ok ops =>
      match draw_paths rest with
      | .error e => .error e
      | .ok more => .ok (ops ++ more)

theorem emitNode_not_move (n : GNode) :
    ∃ pt ty sm, emitNode n = PenOp.addPoint pt ty sm ∧ ty ≠ some "move" := by
  refine ⟨(n.x, n.y), _, n.smooth, rfl, ?_⟩
  by_cases h : n.ty = "line" ∨ n.ty = "curve" <;> simp [h]
  rcases h with h | h <;> simp [h]

/-- C4: a path marked closed with N nodes yields exactly N addPoint
calls, none of kind move; a path not marked closed whose first node has
type line yields that node as a move point followed by exactly N minus 1
further points, all between one beginPath and one endPath call. -/
theorem draw_paths_point_counts (p : GPath) :
    (p.closed = true →
      ∃ mid, draw_paths [p]
          = .ok ([PenOp.beginPath] ++ mid ++ [PenOp.endPath])
        ∧ mid.length = p.nodes.length
        ∧ ∀ op ∈ mid, ∃ pt ty sm,
            op = PenOp.addPoint pt ty sm ∧ ty ≠ some "move")
    ∧ (∀ n rest, p.closed = false → p.nodes = n :: rest → n.ty = "line" →
      ∃ mid, draw_paths [p]
          = .ok ([PenOp.beginPath,
                  PenOp.addPoint (n.x, n.y) (some "move") false]
                 ++ mid ++ [PenOp.endPath])
        ∧ mid.length = p.nodes.length - 1
        ∧ ∀ op ∈ mid, ∃ pt ty sm, op = PenOp.addPoint pt ty sm) := by
  constructor
  · intro hc
    refine ⟨p.nodes.map emitNode, ?_, by simp, ?_⟩
    · simp [draw_paths, drawOnePath, hc]
    · intro op hop
      obtain ⟨n, _, rfl⟩ := List.mem_map.mp hop
      exact emitNode_not_move n
  · intro n rest hc hn hl
    refine ⟨rest.map emitNode, ?_, by simp [hn], ?_⟩
    · simp [draw_paths, drawOnePath, hc, hn, hl]
    · intro op hop
      obtain ⟨m, _, rfl⟩ := List.mem_map.mp hop
      obtain ⟨pt, ty, sm, he, _⟩ := emitNode_not_move m
      exact ⟨pt, ty, sm, he⟩

/-- Witness for C4: a concrete closed two-node path and a concrete open
two-node path whose first node has type line. -/
theorem draw_paths_point_counts_witness :
    (∃ mid, draw_paths [GPath.mk true [GNode.mk 0 0 "line" false,
            GNode.mk 1 2 "offcurve" true]]
        = .ok ([PenOp.beginPath] ++ mid ++ [PenOp.endPath])
      ∧ mid.length = 2
      ∧ ∀ op ∈ mid, ∃ pt ty sm,
          op = PenOp.addPoint pt ty sm ∧ ty ≠ some "move")
    ∧ (∃ mid, draw_paths [GPath.mk false [GNode.mk 0 0 "line" false,
            GNode.mk 3 4 "curve" true]]
        = .ok ([PenOp.beginPath, PenOp.addPoint (0, 0) (some "move") false]
               ++ mid ++ [PenOp.endPath])
      ∧ mid.length = 1
      ∧ ∀ op ∈ mid, ∃ pt ty sm, op = PenOp.addPoint pt ty sm) :=
  ⟨(draw_paths_point_counts _).1 rfl,
   (draw_paths_point_counts _).2 (GNode.mk 0 0 "line" false)
     [GNode.mk 3 4 "curve" true] rfl rfl rfl⟩

/-- C5: if some path in the input is not marked closed and its first
node does not have type line, draw_paths fails with an error; and when
every path not marked closed has a first node of type line, draw_paths
never fails. -/
theorem draw_paths_open_path_errors (paths : List GPath) :
    (∀ p n rest, p ∈ paths → p.closed = false → p.nodes = n :: rest →
        n.ty ≠ "line" → ∃ e, draw_paths paths = .error e)
    ∧ ((∀ p, p ∈ paths → p.closed = false →
          ∃ n rest, p.nodes = n :: rest ∧ n.ty = "line") →
        ∃ ops, draw_paths paths = .ok ops) := by
  induction paths with
  | nil =>
    exact ⟨fun p n rest hp => absurd hp (List.not_mem_nil p), fun _ => ⟨[], rfl⟩⟩
  | cons q t ih =>
    constructor
    · intro p n rest hp hc hn hl
      rcases List.mem_cons.mp hp with rfl | hpt
      · refine ⟨"Open path starts with off-curve points", ?_⟩
        simp [draw_paths, drawOnePath, hc, hn, hl]
      · obtain ⟨e, he⟩ := ih.1 p n rest hpt hc hn hl
        cases hq : drawOnePath q with
        | error e' => exact ⟨e', by simp [draw_paths, hq]⟩
        | ok ops => exact ⟨e, by simp [draw_paths, hq, he]⟩
    · intro hall
      have hq : ∃ ops, drawOnePath q = .ok ops := by
        cases hc : q.closed with
        | true =>
          exact ⟨[PenOp.beginPath] ++ q.nodes.map emitNode ++ [PenOp.endPath],
            by simp [drawOnePath, hc]⟩
        | false =>
          obtain ⟨n, rest, hn, hl⟩ := hall q (List.mem_cons_self q t) hc
          exact ⟨[PenOp.beginPath,
              PenOp.addPoint (n.x, n.y) (some "move") false]
              ++ rest.map emitNode ++ [PenOp.endPath],
            by simp [drawOnePath, hc, hn, hl]⟩
      obtain ⟨ops, hops⟩ := hq
      obtain ⟨more, hmore⟩ :=
        ih.2 (fun p hp => hall p (List.mem_cons_of_mem q hp))
      exact ⟨ops ++ more, by simp [draw_paths, hops, hmore]⟩

/-- Witness for C5: a concrete open path starting with a curve node
makes draw_paths fail, and a concrete open path starting with a line
node succeeds. -/
theorem draw_paths_open_path_errors_witness :
    (∃ e, draw_paths [GPath.mk false [GNode.mk 0 0 "curve" false]]
        = .error e)
    ∧ (∃ ops, draw_paths [GPath.mk false [GNode.mk 0 0 "line" false]]
        = .ok ops) :=
  ⟨(draw_paths_open_path_errors _).1 (GPath.mk false [GNode.mk 0 0 "curve" false])
      (GNode.mk 0 0 "curve" false) [] (by decide) rfl rfl (by decide),
   (draw_paths_open_path_errors _).2 (by
      intro p hp hc
      have hp1 : p = GPath.mk false [GNode.mk 0 0 "line" false] := by
        simpa using hp
      subst hp1
      exact ⟨GNode.mk 0 0 "line" false, [], rfl, rfl⟩)⟩

/-- Python str.lower on the ASCII style names handled here. -/
def pyLower (s : String) : String :=
  String.mk (s.data.map Char.toLower)

/-- Python substring membership test, as in the source check whether the
style name contains Italic. -/
def containsSub (s pat : String) : Bool :=
  (searchAlt [pat.data] s.data).isSome

/-- Python str.replace over character lists for a non-empty pattern:
scan left to right and replace each non-overlapping occurrence. The
source only calls this with the non-empty patterns Bold and Italic. -/
def replaceList (pat repl : List Char) (s : List Char) : List Char :=
  if h : pat ≠ [] ∧ pat <+: s then
    repl ++ replaceList pat repl (s.drop pat.length)
  else
    match s with
    | [] => []
    | c :: t => c :: replaceList pat repl t
termination_by s.length
decreasing_by
  · have hlen : pat.length ≤ s.length := h.2.length_le
    have hne : pat.length ≠ 0 := fun hz =>
      h.1 (List.length_eq_zero.mp hz)
    simp only [List.length_drop]
    omega
  · simp

/-- Python str.replace on strings. -/
def pyReplace (s pat repl : String) : String :=
  String.mk (replaceList pat.data repl.data s.data)

/-- Python str.split with no argument, over characters: split on runs of
whitespace, discarding empty fields. -/
def pySplitChars : List Char → List (List Char)
  | [] => []
  | c :: t =>
    if c.isWhitespace then pySplitChars t
    else (c :: t.takeWhile (fun d => ¬ d.isWhitespace)) ::
      pySplitChars (t.dropWhile (fun d => ¬ d.isWhitespace))
termination_by s => s.length
decreasing_by
  · simp
  · have := List.Sublist.length_le
      (List.dropWhile_sublist (l := t) (p := fun d => ¬ d.isWhitespace))
    simp only [List.length_cons]
    omega

/-- Python str.split with no argument. -/
def pySplit (s : String) : List String :=
  (pySplitChars s.data).map String.mk

/-- The fields set_redundant_data writes on the target font. -/
structure RedundantData where
  widthClass : Option Int
  weightClass : Option Int
  libWeight : Option String
  libWidth : Option String
  styleMapStyleName : String
  styleMapFamilyName : String
  openTypeNamePreferredFamilyName : String
  openTypeNamePreferredSubfamilyName : String
deriving DecidableEq, Repr

/-- Source function set_redundant_data: parse width and weight back out
of the style name, look up the OS/2 class codes, record the lib weight
and width entries, and derive the style-map family and style names. The
Python table indexing raises KeyError on a missing key; the parsed
tokens are always table keys or empty (itself a key), so the Option
lookups here are always some. -/
def set_redundant_data (family_name style_name : String) : RedundantData :=
  let width := styleWidth style_name
  let weight := styleWeight style_name
  let smPair :=
    if pyLower style_name ∈ ["regular", "bold", "italic", "bold italic"] then
      (pyLower style_name, family_name)
    else
      let joined := joinNonEmpty
        [if weight = "Bold" then "bold" else "",
         if containsSub style_name "Italic" then "italic" else ""]
      ((if joined = "" then "regular" else joined),
       String.intercalate " "
         ([family_name] ++
          pySplit (pyReplace (pyReplace style_name "Bold" "") "Italic" "")))
  { widthClass := WIDTH_CODES.lookup width
    weightClass := WEIGHT_CODES.lookup weight
    libWeight := if weight ≠ "" ∧ weight ≠ "Regular" then some weight else none
    libWidth := if width ≠ "" then some width else none
    styleMapStyleName := smPair.1
    styleMapFamilyName := smPair.2
    openTypeNamePreferredFamilyName := family_name
    openTypeNamePreferredSubfamilyName := style_name }

/-- C9: whatever the family and style names are, the style-map style
name written by set_redundant_data is one of the four strings regular,
bold, italic, bold italic: the matching branch lowercases the style
name, and the other branch joins a subset of bold and italic or falls
back to regular. -/
theorem style_map_style_name_invariant (family_name style_name : String) :
    (set_redundant_data family_name style_name).styleMapStyleName
      ∈ ["regular", "bold", "italic", "bold italic"] := by
  unfold set_redundant_data
  by_cases h : pyLower style_name ∈ ["regular", "bold", "italic", "bold italic"]
  · simp only [h, if_pos]
  · by_cases hb : styleWeight style_name = "Bold" <;>
      by_cases hi : containsSub style_name "Italic" = true <;>
      simp [h, hb, hi, joinNonEmpty] <;> decide

/-- C6 counterexample: the style name Bold case-insensitively equals
bold, yet the style-map style name written for it is bold, not the
verbatim style name Bold. -/
theorem set_redundant_data_not_verbatim :
    pyLower "Bold" ∈ ["regular", "bold", "italic", "bold italic"] ∧
    (set_redundant_data "Family" "Bold").styleMapStyleName ≠ "Bold" := by
  decide

/-- C6 (amended): for every master whose derived style name
case-insensitively equals one of regular, bold, italic, bold italic,
the style-map style name is set to the lowercased style name and the
style-map family name to the plain family name. -/
theorem set_redundant_data_lowercase_style_map
    (family_name style_name : String)
    (h : pyLower style_name ∈ ["regular", "bold", "italic", "bold italic"]) :
    (set_redundant_data family_name style_name).styleMapStyleName
        = pyLower style_name
    ∧ (set_redundant_data family_name style_name).styleMapFamilyName
        = family_name := by
  simp [set_redundant_data, h]

/-- Witness for the amended C6 theorem at the concrete style name
Bold Italic. -/
theorem set_redundant_data_lowercase_style_map_witness :
    (set_redundant_data "Family" "Bold Italic").styleMapStyleName
        = "bold italic"
    ∧ (set_redundant_data "Family" "Bold Italic").styleMapFamilyName
        = "Family" := by
  have h := set_redundant_data_lowercase_style_map "Family" "Bold Italic"
    (by decide)
  exact ⟨h.1.trans (by decide), h.2⟩

/-- The glyph fields consumed by add_glyph_to_groups: the glyph name and
the optional right and left kerning-group membership values. -/
structure Glyph where
  glyphname : String
  rightKerningGroup : Option String
  leftKerningGroup : Option String
deriving DecidableEq, Repr

/-- Pointwise update of a kerning-group dict modelled as a total map
with default empty member list (Python dict.get with default). -/
def updateMap (m : String → List String) (k : String) (v : List String) :
    String → List String :=
  fun q => if q = k then v else m q

theorem kern1_eq_iff (v w : String) :
    "public.kern1." ++ v = "public.kern1." ++ w ↔ v = w := by
  constructor
  · intro h
    have hd := congrArg String.data h
    have h2 : v.data = w.data := List.append_cancel_left hd
    cases v; cases w; exact congrArg String.mk h2
  · intro h; rw [h]

theorem kern2_eq_iff (v w : String) :
    "public.kern2." ++ v = "public.kern2." ++ w ↔ v = w := by
  constructor
  · intro h
    have hd := congrArg String.data h
    have h2 : v.data = w.data := List.append_cancel_left hd
    cases v; cases w; exact congrArg String.mk h2
  · intro h; rw [h]

theorem kern1_ne_kern2 (v w : String) :
    "public.kern1." ++ v ≠ "public.kern2." ++ w := by
  intro h
  have hd := congrArg String.data h
  have := (List.append_inj hd (by decide)).1
  exact absurd this (by decide)

theorem kern2_ne_kern1 (v w : String) :
    "public.kern2." ++ v ≠ "public.kern1." ++ w :=
  fun h => kern1_ne_kern2 w v h.symm

/-- Source function add_glyph_to_groups: if the glyph declares a
right-kerning-group membership, append its name to group
public.kern1.value; if it declares a left-kerning-group membership,
append its name to group public.kern2.value (the fixed cross-wired
side-to-kern-number mapping of the source table group_keys). -/
def add_glyph_to_groups (m : String → List String) (g : Glyph) :
    String → List String :=
  let m1 := match g.rightKerningGroup with
    | some v => updateMap m ("public.kern1." ++ v)
        (m ("public.kern1." ++ v) ++ [g.glyphname])
    | none => m
  match g.leftKerningGroup with
  | some v => updateMap m1 ("public.kern2." ++ v)
      (m1 ("public.kern2." ++ v) ++ [g.glyphname])
  | none => m1

/-- The group aggregation the orchestrator performs: add_glyph_to_groups
applied to every glyph in declaration order, starting from the empty
dict. -/
def buildKerningGroups (glyphs : List Glyph) : String → List String :=
  glyphs.foldl add_glyph_to_groups (fun _ => [])

theorem add_glyph_kern1 (m : String → List String) (g : Glyph) (v : String) :
    add_glyph_to_groups m g ("public.kern1." ++ v)
      = m ("public.kern1." ++ v)
        ++ (if g.rightKerningGroup = some v then [g.glyphname] else []) := by
  cases hr : g.rightKerningGroup with
  | none =>
    cases hl : g.leftKerningGroup with
    | none => simp [add_glyph_to_groups, hr, hl]
    | some w => simp [add_glyph_to_groups, updateMap, hr, hl, kern1_ne_kern2]
  | some u =>
    cases hl : g.leftKerningGroup with
    | none =>
      by_cases hv : u = v
      · subst hv; simp [add_glyph_to_groups, updateMap, hr, hl]
      · simp [add_glyph_to_groups, updateMap, hr, hl, kern1_eq_iff,
          Ne.symm hv, hv]
    | some w =>
      by_cases hv : u = v
      · subst hv
        simp [add_glyph_to_groups, updateMap, hr, hl, kern1_ne_kern2]
      · simp [add_glyph_to_groups, updateMap, hr, hl, kern1_eq_iff,
          kern1_ne_kern2, Ne.symm hv, hv]

theorem add_glyph_kern2 (m : String → List String) (g : Glyph) (v : String) :
    add_glyph_to_groups m g ("public.kern2." ++ v)
      = m ("public.kern2." ++ v)
        ++ (if g.leftKerningGroup = some v then [g.glyphname] else []) := by
  cases hr : g.rightKerningGroup with
  | none =>
    cases hl : g.leftKerningGroup with
    | none => simp [add_glyph_to_groups, hr, hl]
    | some w =>
      by_cases hv : w = v
      · subst hv; simp [add_glyph_to_groups, updateMap, hr, hl]
      · simp [add_glyph_to_groups, updateMap, hr, hl, kern2_eq_iff,
          Ne.symm hv, hv]
  | some u =>
    cases hl : g.leftKerningGroup with
    | none => simp [add_glyph_to_groups, updateMap, hr, hl, kern2_ne_kern1]
    | some w =>
      by_cases hv : w = v
      · subst hv
        simp [add_glyph_to_groups, updateMap, hr, hl, kern2_ne_kern1]
      · simp [add_glyph_to_groups, updateMap, hr, hl, kern2_eq_iff,
          kern2_ne_kern1, Ne.symm hv, hv]

theorem buildKerningGroups_kern1_aux (glyphs : List Glyph)
    (m : String → List String) (v : String) :
    glyphs.foldl add_glyph_to_groups m ("public.kern1." ++ v)
      = m ("public.kern1." ++ v)
        ++ (glyphs.filter (fun g => g.rightKerningGroup = some v)).map
            (fun g => g.glyphname) := by
  induction glyphs generalizing m with
  | nil => simp
  | cons g t ih =>
    simp only [List.foldl_cons, List.filter_cons]
    rw [ih, add_glyph_kern1]
    by_cases hg : g.rightKerningGroup = some v <;> simp [hg]

theorem buildKerningGroups_kern2_aux (glyphs : List Glyph)
    (m : String → List String) (v : String) :
    glyphs.foldl add_glyph_to_groups m ("public.kern2." ++ v)
      = m ("public.kern2." ++ v)
        ++ (glyphs.filter (fun g => g.leftKerningGroup = some v)).map
            (fun g => g.glyphname) := by
  induction glyphs generalizing m with
  | nil => simp
  | cons g t ih =>
    simp only [List.foldl_cons, List.filter_cons]
    rw [ih, add_glyph_kern2]
    by_cases hg : g.leftKerningGroup = some v <;> simp [hg]

/-- C7: aggregating add_glyph_to_groups over the glyph list makes group
public.kern1.v hold exactly the names of the glyphs that declare
right-kerning-group membership v, and group public.kern2.v exactly the
names of the glyphs that declare left-kerning-group membership v, in
glyph declaration order. -/
theorem add_glyph_to_groups_spec (glyphs : List Glyph) (v : String) :
    buildKerningGroups glyphs ("public.kern1." ++ v)
      = (glyphs.filter (fun g => g.rightKerningGroup = some v)).map
          (fun g => g.glyphname)
    ∧ buildKerningGroups glyphs ("public.kern2." ++ v)
      = (glyphs.filter (fun g => g.leftKerningGroup = some v)).map
          (fun g => g.glyphname) :=
  ⟨by simpa using buildKerningGroups_kern1_aux glyphs (fun _ => []) v,
   by simpa using buildKerningGroups_kern2_aux glyphs (fun _ => []) v⟩

/-- Source function normalize_custom_param_name: replace the four curved
quote characters by straight quotes. Each of the four replacements is a
single character for a single character and no replacement output is a
later replacement input, so the sequence of str.replace calls is one
character map. -/
def normalize_custom_param_name (name : String) : String :=
  String.mk (name.data.map fun c =>
    if c = '‘' ∨ c = '’' then '\''
    else if c = '“' ∨ c = '”' then '\"' else c)

/-- Source table opentype_attr_prefix_pairs inside set_custom_params. -/
def opentypeAttrPairs : List (String × String) :=
  [("hhea", "Hhea"), ("description", "NameDescription"),
   ("license", "NameLicense"), ("panose", "OS2Panose"),
   ("typo", "OS2Typo"), ("unicodeRanges", "OS2UnicodeRanges"),
   ("win", "OS2Win"), ("vendorID", "OS2VendorID"),
   ("versionString", "NameVersion"), ("fsType", "OS2Type")]

/-- Python re.sub with a pattern anchored at the string start and a
literal body: rewrite the head of the name if it matches. -/
def subAnchored (head repl name : String) : String :=
  if head.data.isPrefixOf name.data then
    repl ++ String.mk (name.data.drop head.data.length)
  else name

/-- The loop over opentype_attr_prefix_pairs: each anchored substitution
is applied in sequence to the (possibly already rewritten) name. -/
def rewriteParamName (name : String) : String :=
  opentypeAttrPairs.foldl
    (fun n pr => subAnchored pr.1 ("openType" ++ pr.2) n) name

/-- Source tuple postscript_attrs inside set_custom_params. -/
def postscriptAttrs : List String :=
  ["underlinePosition", "underlineThickness"]

/-- Python name[0].upper() + name[1:]. The Python expression raises on
an empty name; it is only applied to the two non-empty names of
postscriptAttrs, so the empty case is unreachable. -/
def capFirst (s : String) : String :=
  match s.data with
  | [] => ""
  | c :: t => String.mk (c.toUpper :: t)

/-- The full name-and-value rewriting set_custom_params performs for one
parsed (name, value) pair, in source order: quote normalization, the
disablesNiceNames special case with logically inverted value, the
anchored prefix table, the postscript attribute renaming, and the sign
flip for negative openTypeOS2Win values. Values are modelled as
integers, which covers the numeric and boolean-valued parameters the
rules inspect. -/
def rewriteCustomParam (p : String × Int) : String × Int :=
  let name0 := normalize_custom_param_name p.1
  let nv :=
    if name0 = "disablesNiceNames" then
      ("useNiceNames", if p.2 = 0 then (1 : Int) else 0)
    else (name0, p.2)
  let name2 := rewriteParamName nv.1
  let name3 :=
    if name2 ∈ postscriptAttrs then "postscript" ++ capFirst name2 else name2
  let value2 :=
    if "openTypeOS2Win".data.isPrefixOf name3.data ∧ nv.2 < 0 then -nv.2
    else nv.2
  (name3, value2)

/-- The assignments set_custom_params performs: writes to named
attributes of the target info object and entries dumped into the lib
under the reserved namespace. -/
structure ParamWrites where
  info : List (String × Int)
  lib : List (String × Int)
deriving DecidableEq, Repr

/-- Source function set_custom_params over pre-parsed pairs. The
attribute probing hasattr(ufo.info, name) is modelled by membership in
infoAttrNames, the list of attribute names the target info object
exposes; non_info is the excluded set passed by the caller. -/
def set_custom_params (infoAttrNames non_info : List String)
    (parsed : List (String × Int)) : ParamWrites :=
  parsed.foldl (fun acc p =>
    let q := rewriteCustomParam p
    if q.1 ∈ infoAttrNames ∧ q.1 ∉ non_info then
      { acc with info := acc.info ++ [q] }
    else
      { acc with lib := acc.lib ++ [(glyphsNS ++ q.1, q.2)] })
    ⟨[], []⟩

/-- C8: the custom parameter hheaAscender with value 950 is rewritten to
openTypeHheaAscender and, whenever the target info object exposes that
attribute name (the excluded set being empty for document-scope
parameters), the value is written to that info attribute and nothing is
written to the lib store. -/
theorem set_custom_params_hhea_ascender (infoAttrNames : List String)
    (h : "openTypeHheaAscender" ∈ infoAttrNames) :
    set_custom_params infoAttrNames [] [("hheaAscender", 950)]
      = ⟨[("openTypeHheaAscender", 950)], []⟩ := by
  have hq : rewriteCustomParam ("hheaAscender", 950)
      = ("openTypeHheaAscender", 950) := by decide
  unfold set_custom_params
  simp only [List.foldl_cons, List.foldl_nil, hq]
  rw [if_pos ⟨h, by simp⟩]
  rfl

/-- Witness for C8 with an info object exposing exactly the
openTypeHheaAscender attribute. -/
theorem set_custom_params_hhea_ascender_witness :
    set_custom_params ["openTypeHheaAscender"] [] [("hheaAscender", 950)]
      = ⟨[("openTypeHheaAscender", 950)], []⟩ :=
  set_custom_params_hhea_ascender ["openTypeHheaAscender"] (by decide)

/-- The glyphlib_prefix used by load_glyph for its lib keys. -/
def glyphlibNS : String := glyphsNS ++ "Glyphs."

/-- A value written into a glyph lib entry by load_glyph. -/
inductive LibVal where
  | int (i : Int)
  | str (s : String)
deriving DecidableEq, Repr

/-- The color handling of source function load_glyph: when the glyph
carries a color index that is not None and non-negative, write the index
under ColorIndex and the indexed GLYPHS_COLORS entry under markColor;
Python tuple indexing raises IndexError when the index reaches the table
length. (In the source the ColorIndex assignment precedes the failing
lookup; the translation still aborts, so only the error is modelled.) -/
def load_glyph_color (color_index : Option Int) :
    Except String (List (String × LibVal)) :=
  match color_index with
  | none => .ok []
  | some c =>
    if 0 ≤ c then
      match GLYPHS_COLORS[c.toNat]? with
      | some col =>
        .ok [(glyphlibNS ++ "ColorIndex", .int c),
             (publicNS ++ "markColor", .str col)]
      | none => .error "IndexError: tuple index out of range"
    else .ok []

/-- C10: for a glyph carrying color index c, indices 0 through 11 store
both the index and the corresponding entry of the 12-entry color table,
a negative index stores no color data, and an index of 12 or more makes
load_glyph fail with an out-of-range table lookup. -/
theorem load_glyph_color_spec (c : Int) :
    (0 ≤ c → c ≤ 11 →
      ∃ col, GLYPHS_COLORS[c.toNat]? = some col ∧
        load_glyph_color (some c)
          = .ok [(glyphlibNS ++ "ColorIndex", .int c),
                 (publicNS ++ "markColor", .str col)])
    ∧ (c < 0 → load_glyph_color (some c) = .ok [])
    ∧ (12 ≤ c → load_glyph_color (some c)
        = .error "IndexError: tuple index out of range") := by
  refine ⟨fun h0 h11 => ?_, fun hneg => ?_, fun h12 => ?_⟩
  · have hlen : GLYPHS_COLORS.length = 12 := rfl
    have hlt : c.toNat < GLYPHS_COLORS.length := by omega
    refine ⟨GLYPHS_COLORS[c.toNat], List.getElem?_eq_getElem hlt, ?_⟩
    simp [load_glyph_color, h0, List.getElem?_eq_getElem hlt]
  · simp [load_glyph_color, show ¬ (0 : Int) ≤ c by omega]
  · have hlen : GLYPHS_COLORS.length = 12 := rfl
    have hge : GLYPHS_COLORS.length ≤ c.toNat := by omega
    simp [load_glyph_color, show (0 : Int) ≤ c by omega,
      List.getElem?_eq_none hge]

/-- Witness for C10 at the concrete color indices 5, -1 and 12. -/
theorem load_glyph_color_spec_witness :
    (∃ col, GLYPHS_COLORS[(5 : Int).toNat]? = some col ∧
      load_glyph_color (some 5)
        = .ok [(glyphlibNS ++ "ColorIndex", .int 5),
               (publicNS ++ "markColor", .str col)])
    ∧ load_glyph_color (some (-1)) = .ok []
    ∧ load_glyph_color (some 12)
        = .error "IndexError: tuple index out of range" :=
  ⟨(load_glyph_color_spec 5).1 (by decide) (by decide),
   (load_glyph_color_spec (-1)).2.1 (by decide),
   (load_glyph_color_spec 12).2.2 (by decide)⟩

/-- A kerning pair key: left and right participant (glyph or group
name). -/
abbrev KernPair := String × String

/-- A kerning rule as built in remove_rule_if_conflict: the original
pair plus its value. -/
abbrev KernRule := KernPair × Int

/-- The seen dict of load_kerning, mapping an expanded glyph pair to the
rule that established it. -/
abbrev SeenMap := List (KernPair × KernRule)

/-- The queue of mixed class-to-glyph pairs collected by load_kerning:
class name, glyph name, and whether the class is the left side. -/
abbrev ClassQueue := List (String × String × Bool)

/-- A diagnostic emitted by the kerning loader, with the data the
corresponding Python warning message interpolates. -/
inductive KernWarning where
  | nonExistentClass (name : String)
  | conflict (styleName : String) (pair : KernPair)
      (existingRule newRule : KernRule)
deriving DecidableEq, Repr

/-- The UFO state the kerning loader reads and mutates: declared groups,
the kerning map, the style name used in warnings, and the warnings
emitted so far. -/
structure KernState where
  groups : List (String × List String)
  kerning : List (KernPair × Int)
  styleName : String
  warnings : List KernWarning
deriving DecidableEq, Repr

/-- Python dict lookup on an association list with unique keys. -/
def dictGet {K V : Type} [DecidableEq K] (m : List (K × V)) (k : K) :
    Option V :=
  match m with
  | [] => none
  | (q, v) :: t => if q = k then some v else dictGet t k

/-- Python dict assignment: replace the entry in place if the key
exists, else append. -/
def dictInsert {K V : Type} [DecidableEq K] (m : List (K × V)) (k : K)
    (v : V) : List (K × V) :=
  match m with
  | [] => [(k, v)]
  | (q, w) :: t => if q = k then (k, v) :: t else (q, w) :: dictInsert t k v

/-- Python del on a dict with unique keys. -/
def dictDelete {K V : Type} [DecidableEq K] (m : List (K × V)) (k : K) :
    List (K × V) :=
  match m with
  | [] => []
  | (q, w) :: t => if q = k then t else (q, w) :: dictDelete t k

/-- Python re.match of the pattern @MMK_L_(.+) (resp. @MMK_R_): the key
must start with the 7-character prefix followed by at least one more
character; group 1 is the remainder. The dot of the pattern excludes
newlines, which do not occur in kerning keys. -/
def matchMMK (pre s : String) : Option String :=
  if pre.data.isPrefixOf s.data ∧ pre.data.length < s.data.length then
    some (String.mk (s.data.drop pre.data.length))
  else none

/-- The member loop of remove_rule_if_conflict: walk the current group
membership, dropping each member whose expanded pair clashes with a
different-valued rule already seen, unless an explicit glyph-to-glyph
entry for that exact pair exists in the kerning map; kept members record
their pair in seen. Returns the surviving members, the updated seen
dict, and the conflict warnings in emission order. -/
def checkMembers (kern : List (KernPair × Int)) (styleName glyph : String)
    (isLeftClass : Bool) (val : Int) (rule : KernRule) :
    List String → SeenMap → List String × SeenMap × List KernWarning
  | [], seen => ([], seen, [])
  | member :: rest, seen =>
    let pair : KernPair :=
      if isLeftClass then (member, glyph) else (glyph, member)
    match dictGet seen pair with
    | some existingRule =>
      if existingRule.2 ≠ val ∧ dictGet kern pair = none then
        let (ns, seen1, ws) :=
          checkMembers kern styleName glyph isLeftClass val rule rest seen
        (ns, seen1,
         KernWarning.conflict styleName pair existingRule rule :: ws)
      else
        let (ns, seen1, ws) := checkMembers kern styleName glyph isLeftClass
          val rule rest (dictInsert seen pair rule)
        (member :: ns, seen1, ws)
    | none =>
      let (ns, seen1, ws) := checkMembers kern styleName glyph isLeftClass
        val rule rest (dictInsert seen pair rule)
      (member :: ns, seen1, ws)

/-- Source function remove_rule_if_conflict. Python raises KeyError when
the original pair is missing from the kerning map or the class name from
the groups dict; both are modelled as errors. When any member was
dropped, the class-level entry is deleted and replaced by individual
entries for the surviving members. -/
def remove_rule_if_conflict (st : KernState) (seen : SeenMap)
    (classname glyph : String) (isLeftClass : Bool) :
    Except String (KernState × SeenMap) :=
  let originalPair : KernPair :=
    if isLeftClass then (classname, glyph) else (glyph, classname)
  match dictGet st.kerning originalPair with
  | none => .error "KeyError: kerning"
  | some val =>
    let rule : KernRule := (originalPair, val)
    match dictGet st.groups classname with
    | none => .error "KeyError: groups"
    | some oldGlyphs =>
      let (newGlyphs, seen1, ws) := checkMembers st.kerning st.styleName
        glyph isLeftClass val rule oldGlyphs seen
      let st1 := { st with warnings := st.warnings ++ ws }
      if newGlyphs ≠ oldGlyphs then
        let kern1 := dictDelete st1.kerning originalPair
        let kern2 := newGlyphs.foldl (fun k member =>
          dictInsert k
            (if isLeftClass then (member, glyph) else (glyph, member)) val)
          kern1
        .ok ({ st1 with kerning := kern2 }, seen1)
      else .ok (st1, seen1)

/-- The inner loop of load_kerning over the right-hand dict of one left
key: rewrite @MMK_R_ class references, drop pairs whose class is not a
declared group (with a warning), queue mixed class-to-glyph pairs, and
write every surviving pair into the kerning map. -/
def loadKernRights (st : KernState) (queue : ClassQueue) (left : String)
    (leftIsClass : Bool) :
    List (String × Int) → KernState × ClassQueue
  | [] => (st, queue)
  | (right0, val) :: rest =>
    let put := fun (right : String) (rightIsClass : Bool) =>
      (({ st with kerning := dictInsert st.kerning (left, right) val }
          : KernState),
       if leftIsClass ≠ rightIsClass then
         queue ++ [if leftIsClass then (left, right, true)
                   else (right, left, false)]
       else queue)
    match matchMMK "@MMK_R_" right0 with
    | some x =>
      let right := "public.kern2." ++ x
      if (dictGet st.groups right).isSome then
        let (st1, q1) := put right true
        loadKernRights st1 q1 left leftIsClass rest
      else
        loadKernRights
          { st with
            warnings := st.warnings ++ [KernWarning.nonExistentClass right] }
          queue left leftIsClass rest
    | none =>
      let (st1, q1) := put right0 false
      loadKernRights st1 q1 left leftIsClass rest

/-- The outer loop of load_kerning over the kerning data: rewrite
@MMK_L_ class references, skip left keys whose class is not a declared
group (with a warning), and process the right-hand dict of each
surviving left key. -/
def loadKernEntries (st : KernState) (queue : ClassQueue) :
    List (String × List (String × Int)) → KernState × ClassQueue
  | [] => (st, queue)
  | (left0, pairs) :: rest =>
    match matchMMK "@MMK_L_" left0 with
    | some x =>
      let left := "public.kern1." ++ x
      if (dictGet st.groups left).isSome then
        let (st1, q1) := loadKernRights st queue left true pairs
        loadKernEntries st1 q1 rest
      else
        loadKernEntries
          { st with
            warnings := st.warnings ++ [KernWarning.nonExistentClass left] }
          queue rest
    | none =>
      let (st1, q1) := loadKernRights st queue left0 false pairs
      loadKernEntries st1 q1 rest

/-- The conflict pass at the end of load_kerning: process the queued
mixed pairs in reverse insertion order, threading the seen dict. -/
def runConflicts : KernState → SeenMap → ClassQueue → Except String KernState
  | st, _, [] => .ok st
  | st, seen, (c, g, b) :: rest =>
    match remove_rule_if_conflict st seen c g b with
    | .error e => .error e
    | .ok (st1, seen1) => runConflicts st1 seen1 rest

/-- Source function load_kerning: the loading pass over the kerning data
followed by the reversed conflict pass. -/
def load_kerning (st : KernState)
    (kerning_data : List (String × List (String × Int))) :
    Except String KernState :=
  let (st1, queue) := loadKernEntries st [] kerning_data
  runConflicts st1 [] queue.reverse

/-- The C1 scenario state: group public.kern1.A with members A1 and A2
declared, empty kerning map. -/
def c1Init : KernState :=
  ⟨[("public.kern1.A", ["A1", "A2"])], [], "Regular", []⟩

/-- The C1 scenario kerning data: the class pair of value -40 and the
explicit glyph pair of value -10, in declaration order. -/
def c1Data : List (String × List (String × Int)) :=
  [("@MMK_L_A", [("B", -40)]), ("A1", [("B", -10)])]

/-- Result of load_kerning on the C1 scenario. -/
def c1Result : Except String KernState := load_kerning c1Init c1Data

/-- The state load_kerning produces on the C1 scenario (the run
succeeds, as the first conjunct of the theorems below shows). -/
def c1State : KernState :=
  match c1Result with
  | .ok st => st
  | .error _ => ⟨[], [], "", []⟩

/-- C1 counterexample: in the scenario with kerning pair
(@MMK_L_A, B, -40), group public.kern1.A = [A1, A2] and explicit pair
(A1, B, -10), the resulting kerning map holds no direct (A2, B) entry
and no warning at all is emitted, contradicting the claimed direct
(A2, B) = -40 entry and the claimed conflict warning naming A1. -/
theorem load_kerning_scenario_counterexample :
    c1Result.toOption = some c1State
    ∧ dictGet c1State.kerning ("A2", "B") = none
    ∧ c1State.warnings = [] := by decide

/-- C1 (amended): in the scenario, the master kerning map contains the
explicit pair (A1, B) = -10 and the class-level entry
(public.kern1.A, B) = -40 (so A2 inherits -40 through the class rather
than as a direct entry), and no conflict warning is emitted: with a
single queued class rule nothing is in seen, and the explicit (A1, B)
entry would suppress the member drop in any case. -/
theorem load_kerning_scenario_amended :
    c1Result.toOption = some c1State
    ∧ dictGet c1State.kerning ("A1", "B") = some (-10)
    ∧ dictGet c1State.kerning ("public.kern1.A", "B") = some (-40)
    ∧ dictGet c1State.kerning ("A2", "B") = none
    ∧ c1State.warnings = [] := by decide

/-- C2 counterexample: parse_style_attrs is not a left inverse of
build_style_name on table-drawn token pairs. With width Cd and weight
Regular the weight token comes back empty (the builder erases the
Regular token next to a non-empty width), and with width Condensed the
width token comes back as Cond (the earlier table key Cond shadows
Condensed in the alternation). -/
theorem parse_build_not_left_inverse :
    "Cd" ∈ WIDTH_CODES.map Prod.fst ∧
    "Regular" ∈ WEIGHT_CODES.map Prod.fst ∧
    parse_style_attrs (build_style_name "Cd" "Regular" "" false)
      ≠ ["Cd", "Regular"] ∧
    "Condensed" ∈ WIDTH_CODES.map Prod.fst ∧
    "Bold" ∈ WEIGHT_CODES.map Prod.fst ∧
    parse_style_attrs (build_style_name "Condensed" "Bold" "" false)
      ≠ ["Condensed", "Bold"] := by decide

/-- C2 (amended): for every width and weight token drawn from the code
tables, building a style name (empty custom token, non-italic) and
re-parsing it recovers the width token, except that Condensed parses
back as Cond, and recovers the weight token, except that Regular parses
back as the empty token whenever the width token is non-empty. -/
theorem parse_build_roundtrip_amended :
    ∀ w ∈ WIDTH_CODES.map Prod.fst, ∀ wt ∈ WEIGHT_CODES.map Prod.fst,
      parse_style_attrs (build_style_name w wt "" false) =
        [if w = "Condensed" then "Cond" else w,
         if wt = "Regular" ∧ w ≠ "" then "" else wt] := by decide

/-- Witness for the amended C2 theorem at the concrete token pair
Narrow and Bold. -/
theorem parse_build_roundtrip_amended_witness :
    parse_style_attrs (build_style_name "Narrow" "Bold" "" false)
      = ["Narrow", "Bold"] := by
  simpa using parse_build_roundtrip_amended "Narrow" (by decide) "Bold" (by decide)

end GlyphsBuilder
